import Mathlib

/-!
Shallow embedding of the e-commerce demo application (src/app.py) and
verification of its specified properties.

The application defines a relational schema (Customer, Order, Product and an
order-product association table), seed routines producing randomized rows, and
a fixed set of report queries.  We embed the data model as Lean structures,
a database state as lists of rows, datetimes as integer Unix seconds, and each
query as a pure function on the state.  SQL NULL is `Option.none`; an SQL
aggregate over an empty row set is `none`.  Randomness in the seed routines is
embedded by passing the values drawn from the random generator explicitly,
constrained by hypotheses expressing exactly what the generator guarantees
(e.g. randint(1,3) lands in [1,3]; sample(pool,k) returns k distinct members
of the pool; a Faker date with start_date=d is at least d).
-/

namespace App

/-- Row of the Customer table (app.py class Customer). -/
structure Customer where
  id : Nat
  first_name : String
  last_name : String
  address : String
  city : String
  postcode : String
  email : String
deriving DecidableEq, Repr

/-- Row of the Order table (app.py class Order); datetimes are Unix seconds,
nullable columns are Options. -/
structure Order where
  id : Nat
  order_date : Int
  ship_date : Option Int
  delivered_date : Option Int
  coupon_code : Option String
  customer_id : Nat
deriving DecidableEq, Repr

/-- Row of the Product table (app.py class Product). -/
structure Product where
  id : Nat
  name : String
  price : Int
deriving DecidableEq, Repr

/-- Database state: the three entity tables plus the order_product association
table, whose rows are (order_id, product_id) pairs. -/
structure Store where
  customers : List Customer
  orders : List Order
  products : List Product
  order_product : List (Nat × Nat)
deriving DecidableEq, Repr

/-! ## Report queries -/

/-- get_pending_orders: `Order.query.filter(Order.ship_date.is_(None))
.order_by(Order.order_date.desc()).all()` — orders with NULL ship_date,
sorted by order_date descending. -/
def get_pending_orders (s : Store) : List Order :=
  (s.orders.filter (fun o => o.ship_date.isNone)).mergeSort
    (fun a b => decide (b.order_date ≤ a.order_date))

/-- get_orders_by: fetches the orders with the given customer_id, then looks
the customer up with `.first()` and dereferences `customer.first_name`;
when no such customer exists, `.first()` is None and the dereference raises
AttributeError, modelled as `Except.error`. -/
def get_orders_by (s : Store) (customer_id : Nat) :
    Except String (String × String × List Int) :=
  let orders := s.orders.filter (fun o => o.customer_id == customer_id)
  match s.customers.find? (fun c => c.id == customer_id) with
  | none => Except.error "AttributeError"
  | some c => Except.ok (c.first_name, c.last_name, orders.map Order.order_date)

/-- orders_with_code: `filter(Order.coupon_code.is_not(None))
.filter(Order.coupon_code != 'FREESHIPPING')`. -/
def orders_with_code (s : Store) : List Order :=
  (s.orders.filter (fun o => o.coupon_code.isSome)).filter
    (fun o => decide (o.coupon_code ≠ some "FREESHIPPING"))

/-- The rows of the join Product ⋈ order_product ⋈ Order used by
revenue_in_last_x_days, as (order, product) pairs: one row per association
entry matched with the order row and product row bearing its foreign keys. -/
def revenuePairs (s : Store) : List (Order × Product) :=
  s.order_product.flatMap (fun a =>
    (s.orders.filter (fun o => o.id == a.1)).flatMap (fun o =>
      (s.products.filter (fun p => p.id == a.2)).map (fun p => (o, p))))

/-- revenue_in_last_x_days: `sum(Product.price)` over the join, filtered by
`Order.order_date > datetime.now() - timedelta(days=x_days)`.  SUM of an
empty row set is SQL NULL (`none`).  `now` is passed explicitly. -/
def revenue_in_last_x_days (s : Store) (now : Int) (x_days : Nat := 30) :
    Option Int :=
  let rows := (revenuePairs s).filter
    (fun r => decide (now - (x_days : Int) * 86400 < r.1.order_date))
  if rows.isEmpty then none
  else some ((rows.map (fun r => r.2.price)).sum)

/-- Price of the product row with the given id (0 when absent); used to state
the sum over the association table directly. -/
def priceOf (s : Store) (pid : Nat) : Int :=
  match s.products.filter (fun p => p.id == pid) with
  | [] => 0
  | p :: _ => p.price

/-- get_customers_who_spent_more_than_x_dollars, inner part: the prices of the
join rows Customer ⋈ Order ⋈ order_product ⋈ Product belonging to customer c. -/
def customerRows (s : Store) (c : Customer) : List Int :=
  (s.orders.filter (fun o => o.customer_id == c.id)).flatMap (fun o =>
    (s.order_product.filter (fun a => a.1 == o.id)).flatMap (fun a =>
      (s.products.filter (fun p => p.id == a.2)).map Product.price))

/-- get_customers_who_spent_more_than_x_dollars: group the join rows by
customer and keep groups `having sum(Product.price) > amount`.  A customer
with no join rows forms no group, hence never appears. -/
def get_customers_who_spent_more_than_x_dollars (s : Store)
    (amount : Int := 500) : List Customer :=
  s.customers.filter (fun c =>
    !(customerRows s c).isEmpty && decide (amount < (customerRows s c).sum))

/-- Seconds between ship_date and order_date for every order whose ship_date
is not NULL: the rows fed to AVG by average_fulfillment_time
(`strftime('%s', ship_date) - strftime('%s', order_date)`). -/
def fulfillmentDiffs (s : Store) : List Int :=
  s.orders.filterMap (fun o => o.ship_date.map (fun d => d - o.order_date))

/-- SQLite `time(t, 'unixepoch')`: formats t as a time of day (hour, minute,
second), i.e. reduces t modulo 86400 seconds and splits. -/
def timeFormat (t : ℚ) : Nat × Nat × Nat :=
  let u := (⌊t⌋ % 86400).toNat
  (u / 3600, u % 3600 / 60, u % 60)

/-- average_fulfillment_time: `time(avg(strftime('%s',ship_date) -
strftime('%s',order_date)), 'unixepoch')` over orders with non-NULL
ship_date.  AVG of an empty row set is NULL, and time(NULL) is NULL. -/
def average_fulfillment_time (s : Store) : Option (Nat × Nat × Nat) :=
  let l := fulfillmentDiffs s
  if l.isEmpty then none
  else some (timeFormat
    (((l.map (fun d : Int => (d : ℚ))).sum) / (l.length : ℚ)))

/-- Mean fulfillment time as the spec words it: the arithmetic mean of
(ship_date − order_date) over exactly the orders whose ship_date is present. -/
def spec_meanFulfillment (s : Store) : ℚ :=
  let shipped := s.orders.filter (fun o => o.ship_date.isSome)
  ((shipped.map (fun o => ((o.ship_date.getD 0 - o.order_date : Int) : ℚ))).sum)
    / (shipped.length : ℚ)

/-! ## Seed generator

add_orders draws, for each of its 1000 orders: a customer, an ordered date
(fake.date_time_this_year), a ship outcome (random.choices over [None,
fake.date_time_between(start_date=ordered_date)]), a delivery outcome
considered only when a ship date exists, and a coupon outcome.  We embed one
draw as an OrderChoice record holding everything the generator produced; the
guarantees of the generator (a Faker date_time_between(start_date=d) result is
at least d) become hypotheses of the theorems. -/

/-- One iteration's worth of random draws in add_orders. -/
structure OrderChoice where
  customer : Customer
  ordered_date : Int
  shipPicked : Bool
  shipDraw : Int
  delivPicked : Bool
  delivDraw : Int
  coupon : Option String
deriving DecidableEq, Repr

/-- The body of the add_orders loop: builds the Order row from one draw.
delivered_date is only ever set inside the `if shipped_date:` branch. -/
def mkOrder (oid : Nat) (c : OrderChoice) : Order :=
  let shipped_date := if c.shipPicked then some c.shipDraw else none
  let delivered_date :=
    if shipped_date.isSome then
      (if c.delivPicked then some c.delivDraw else none)
    else none
  { id := oid
    order_date := c.ordered_date
    ship_date := shipped_date
    delivered_date := delivered_date
    coupon_code := c.coupon
    customer_id := c.customer.id }

/-- add_orders: one Order row per draw (ids assigned sequentially by the
autoincrement primary key). -/
def add_orders (choices : List OrderChoice) : List Order :=
  ((List.range choices.length).zip choices).map (fun p => mkOrder p.1 p.2)

/-- The guarantee Faker gives for the draws of one add_orders iteration:
fake.date_time_between(start_date=d) returns a datetime no earlier than d. -/
def OrderChoice.Valid (c : OrderChoice) : Prop :=
  c.ordered_date ≤ c.shipDraw ∧ c.shipDraw ≤ c.delivDraw

instance (c : OrderChoice) : Decidable c.Valid := by
  unfold OrderChoice.Valid; infer_instance

/-- random.sample(population, k) embedded by the k distinct positions the
generator selects: the sample is the rows at those positions. -/
def sample (population : List Product) (idxs : List Nat) : List Product :=
  idxs.filterMap (fun i => population[i]?)

/-- The guarantee random.randint(1,3) + random.sample(products, k) give in one
add_order_products iteration: between 1 and 3 positions, distinct and in
range (sampling is without replacement from the pool). -/
def SampleValid (pool : List Product) (idxs : List Nat) : Prop :=
  1 ≤ idxs.length ∧ idxs.length ≤ 3 ∧ idxs.Nodup ∧ ∀ i ∈ idxs, i < pool.length

instance (pool : List Product) (idxs : List Nat) :
    Decidable (SampleValid pool idxs) := by
  unfold SampleValid; infer_instance

/-- add_order_products: for every order, extend its (initially empty) product
list with a random sample of the product pool.  The result pairs each order
with its product list after the loop. -/
def add_order_products (s : Store) (choices : List (List Nat)) :
    List (Order × List Product) :=
  (s.orders.zip choices).map (fun oc => (oc.1, sample s.products oc.2))

/-! ## Claims -/

/-- Claim C1: get_pending_orders returns exactly the set of orders whose
ship_date is NULL, and the result is sorted in descending order of order_date
(most recent first); for every store, an order appears in the result iff its
ship_date is absent. -/
theorem get_pending_orders_correct (s : Store) :
    (∀ o : Order, o ∈ get_pending_orders s ↔ o ∈ s.orders ∧ o.ship_date = none)
    ∧ (get_pending_orders s).Pairwise
        (fun a b => b.order_date ≤ a.order_date) := by
  constructor
  · intro o
    unfold get_pending_orders
    rw [List.mem_mergeSort, List.mem_filter, Option.isNone_iff_eq_none]
  · unfold get_pending_orders
    have h := @List.sorted_mergeSort Order
      (fun a b => decide (b.order_date ≤ a.order_date))
      (fun a b c hab hbc => by
        simp only [decide_eq_true_eq] at *
        exact le_trans hbc hab)
      (fun a b => by
        simp only [Bool.or_eq_true, decide_eq_true_eq]
        exact le_total b.order_date a.order_date)
      (s.orders.filter (fun o => o.ship_date.isNone))
    exact h.imp (fun hab => of_decide_eq_true hab)

/-- Claim C6: orders_with_code selects exactly the orders whose coupon_code is
present and different from "FREESHIPPING"; orders with an absent coupon_code
or with coupon_code = "FREESHIPPING" are excluded. -/
theorem orders_with_code_correct (s : Store) :
    ∀ o : Order, o ∈ orders_with_code s ↔
      o ∈ s.orders ∧ ∃ c, o.coupon_code = some c ∧ c ≠ "FREESHIPPING" := by
  intro o
  unfold orders_with_code
  simp only [List.mem_filter, Option.isSome_iff_exists, decide_eq_true_eq]
  constructor
  · rintro ⟨⟨ho, c, hc⟩, hne⟩
    refine ⟨ho, c, hc, fun h => hne ?_⟩
    rw [hc, h]
  · rintro ⟨ho, c, hc, hne⟩
    refine ⟨⟨ho, c, hc⟩, fun h => hne ?_⟩
    rw [hc] at h
    exact Option.some.inj h

/-- Claim C9: for a customer_id not present in the store, get_orders_by fails
with a null-dereference error (dereferencing the absent customer record)
instead of returning an empty order history. -/
theorem get_orders_by_missing_customer (s : Store) (cid : Nat)
    (h : ∀ c ∈ s.customers, c.id ≠ cid) :
    get_orders_by s cid = Except.error "AttributeError" := by
  have hf : s.customers.find? (fun c => c.id == cid) = none := by
    rw [List.find?_eq_none]
    intro c hc
    simpa using h c hc
  simp only [get_orders_by, hf]

/-- Witness for C9: a one-customer store queried at an absent id. -/
theorem get_orders_by_missing_customer_witness :
    get_orders_by ⟨[⟨1, "A", "B", "x", "y", "z", "e"⟩], [], [], []⟩ 2
      = Except.error "AttributeError" :=
  get_orders_by_missing_customer _ 2 (by decide)

/-- Claim C10: when no (order, product) association row has its order_date
inside the trailing window — the comparison being strict, an order_date
exactly at now minus x_days is outside — revenue_in_last_x_days yields the
SQL NULL aggregate (none), not the number 0. -/
theorem revenue_outside_window_null (s : Store) (now : Int) (x_days : Nat)
    (h : ∀ r ∈ revenuePairs s,
      r.1.order_date ≤ now - (x_days : Int) * 86400) :
    revenue_in_last_x_days s now x_days = none := by
  unfold revenue_in_last_x_days
  have hnil : (revenuePairs s).filter
      (fun r => decide (now - (x_days : Int) * 86400 < r.1.order_date)) = [] := by
    rw [List.filter_eq_nil_iff]
    intro r hr
    simp only [decide_eq_true_eq, not_lt]
    exact h r hr
  simp [hnil]

/-- Witness for C10: a store with one association whose order_date is exactly
now − 30 days; the strict comparison excludes it and the result is NULL. -/
theorem revenue_outside_window_null_witness :
    revenue_in_last_x_days
      ⟨[], [⟨1, 0, none, none, none, 1⟩], [⟨1, "red", 20⟩], [(1, 1)]⟩
      2592000 30 = none :=
  revenue_outside_window_null _ 2592000 30 (by decide)

/-- The date invariants established by the body of the add_orders loop on a
single valid draw. -/
theorem mkOrder_dates (oid : Nat) (c : OrderChoice) (hv : c.Valid) :
    ((mkOrder oid c).delivered_date.isSome → (mkOrder oid c).ship_date.isSome)
    ∧ (∀ d, (mkOrder oid c).ship_date = some d →
        (mkOrder oid c).order_date ≤ d)
    ∧ (∀ d e, (mkOrder oid c).ship_date = some d →
        (mkOrder oid c).delivered_date = some e → d ≤ e) := by
  obtain ⟨h1, h2⟩ := hv
  unfold mkOrder
  by_cases hs : c.shipPicked
  · simp only [hs, if_true, Option.isSome_some]
    refine ⟨fun _ => trivial, ?_, ?_⟩
    · intro d hd
      cases hd
      exact h1
    · intro d e hd he
      cases hd
      by_cases hdp : c.delivPicked
      · simp only [hdp, if_true] at he
        cases he
        exact h2
      · simp only [hdp, if_false] at he
        cases he
  · simp only [hs, if_false, Option.isSome_none, Bool.false_eq_true]
    refine ⟨fun h => h, ?_, ?_⟩
    · intro d hd
      cases hd
    · intro d e hd
      cases hd

/-- Claim C5: for every order produced by add_orders, delivered_date present
implies ship_date present; a present ship_date is at least order_date; and a
present delivered_date is at least ship_date.  The hypothesis is the Faker
guarantee that date_time_between(start_date=d) is no earlier than d. -/
theorem add_orders_date_invariants (choices : List OrderChoice)
    (hv : ∀ c ∈ choices, c.Valid) :
    ∀ o ∈ add_orders choices,
      (o.delivered_date.isSome → o.ship_date.isSome)
      ∧ (∀ d, o.ship_date = some d → o.order_date ≤ d)
      ∧ (∀ d e, o.ship_date = some d → o.delivered_date = some e → d ≤ e) := by
  intro o ho
  simp only [add_orders, List.mem_map] at ho
  obtain ⟨p, hp, rfl⟩ := ho
  exact mkOrder_dates p.1 p.2 (hv p.2 (List.of_mem_zip hp).2)

/-- A sample order draw used to instantiate the seed-generator theorems. -/
def exampleChoice : OrderChoice :=
  ⟨⟨1, "A", "B", "x", "y", "z", "e"⟩, 0, true, 5, true, 9, none⟩

/-- Witness for C5: the single order generated from a concrete valid draw has
order_date 0 and ship_date 5, and the invariant gives order_date ≤ 5. -/
theorem add_orders_date_invariants_witness :
    (mkOrder 0 exampleChoice).order_date ≤ 5 :=
  ((add_orders_date_invariants [exampleChoice] (by decide))
    (mkOrder 0 exampleChoice) (by decide)).2.1 5 rfl

/-- sample returns one product per selected position when all positions are
in range. -/
theorem sample_length (pool : List Product) (idxs : List Nat)
    (h : ∀ i ∈ idxs, i < pool.length) :
    (sample pool idxs).length = idxs.length := by
  induction idxs with
  | nil => rfl
  | cons i t ih =>
    have hi : i < pool.length := h i (List.mem_cons_self i t)
    have ht : ∀ j ∈ t, j < pool.length := fun j hj => h j (List.mem_cons_of_mem i hj)
    simp only [sample, List.filterMap_cons, List.getElem?_eq_getElem hi]
    simpa [sample] using ih ht

/-- Every sampled product comes from the pool. -/
theorem sample_subset (pool : List Product) (idxs : List Nat) :
    ∀ p ∈ sample pool idxs, p ∈ pool := by
  intro p hp
  simp only [sample, List.mem_filterMap] at hp
  obtain ⟨i, _, hi⟩ := hp
  exact List.getElem?_mem hi

/-- Distinct positions in a pool of distinct product ids yield products with
distinct ids: sampling is without replacement. -/
theorem sample_nodup_ids (pool : List Product) (idxs : List Nat)
    (hn : (pool.map Product.id).Nodup) (hd : idxs.Nodup)
    (hb : ∀ i ∈ idxs, i < pool.length) :
    ((sample pool idxs).map Product.id).Nodup := by
  induction idxs with
  | nil => simp [sample]
  | cons i t ih =>
    have hi : i < pool.length := hb i (List.mem_cons_self i t)
    have ht : ∀ j ∈ t, j < pool.length :=
      fun j hj => hb j (List.mem_cons_of_mem i hj)
    obtain ⟨hit, hdt⟩ := List.nodup_cons.mp hd
    simp only [sample, List.filterMap_cons, List.getElem?_eq_getElem hi,
      List.map_cons]
    rw [List.nodup_cons]
    refine ⟨?_, by simpa [sample] using ih hdt ht⟩
    intro hmem
    simp only [List.mem_map] at hmem
    obtain ⟨p, hp, hpid⟩ := hmem
    simp only [sample, List.mem_filterMap] at hp
    obtain ⟨j, hjt, hj⟩ := hp
    have hjlen : j < pool.length := ht j hjt
    rw [List.getElem?_eq_getElem hjlen] at hj
    have hpj : p = pool[j] := by
      cases hj
      rfl
    have hij : i = j := by
      have hi2 : i < (pool.map Product.id).length := by
        simpa using hi
      have hj2 : j < (pool.map Product.id).length := by
        simpa using hjlen
      have hgi : (pool.map Product.id)[i] = (pool.map Product.id)[j] := by
        rw [List.getElem_map, List.getElem_map]
        rw [← hpj, hpid]
      exact (List.Nodup.getElem_inj_iff hn).mp hgi
    exact hit (hij ▸ hjt)

/-- Claim C4: after add_order_products, the orders are preserved one-for-one
and every order is associated with at least 1 and at most 3 products with
pairwise-distinct ids, all sampled without replacement from the product
pool.  Hypotheses: product ids are unique (primary key), the generator drew
a valid 1-3-element sample for each order. -/
theorem add_order_products_bounds (s : Store) (choices : List (List Nat))
    (hn : (s.products.map Product.id).Nodup)
    (hlen : s.orders.length ≤ choices.length)
    (hc : ∀ idxs ∈ choices, SampleValid s.products idxs) :
    ((add_order_products s choices).map Prod.fst = s.orders)
    ∧ ∀ op ∈ add_order_products s choices,
        1 ≤ op.2.length ∧ op.2.length ≤ 3
        ∧ (op.2.map Product.id).Nodup ∧ ∀ p ∈ op.2, p ∈ s.products := by
  constructor
  · rw [add_order_products, List.map_map]
    exact List.map_fst_zip s.orders choices hlen
  · intro op hop
    simp only [add_order_products, List.mem_map] at hop
    obtain ⟨oc, hoc, rfl⟩ := hop
    obtain ⟨h1, h3, hdup, hb⟩ := hc oc.2 (List.of_mem_zip hoc).2
    have hl := sample_length s.products oc.2 hb
    exact ⟨by rw [hl]; exact h1, by rw [hl]; exact h3,
      sample_nodup_ids s.products oc.2 hn hdup hb,
      sample_subset s.products oc.2⟩

/-- A store used to instantiate the add_order_products theorem. -/
def sampleStore : Store :=
  ⟨[⟨1, "A", "B", "x", "y", "z", "e"⟩],
   [⟨1, 0, none, none, none, 1⟩],
   [⟨1, "red", 10⟩, ⟨2, "blue", 20⟩],
   []⟩

/-- Witness for C4: a concrete store with one order and a 2-element sample. -/
theorem add_order_products_bounds_witness :
    (add_order_products sampleStore [[0, 1]]).map Prod.fst
      = sampleStore.orders :=
  (add_order_products_bounds sampleStore [[0, 1]]
    (by decide) (by decide) (by decide)).1

/-- Claim C3: for a store with 1 customer, 2 products priced 20 and 30, and 1
order associated with both whose order_date is the current instant,
revenue_in_last_x_days with the default 30-day window yields 50. -/
theorem revenue_scenario (now : Int) :
    revenue_in_last_x_days
      ⟨[⟨1, "A", "B", "x", "y", "z", "e"⟩],
       [⟨1, now, none, none, none, 1⟩],
       [⟨1, "p20", 20⟩, ⟨2, "p30", 30⟩],
       [(1, 1), (1, 2)]⟩
      now 30 = some 50 := by
  have h : now - (30 : Nat) * 86400 < now := by
    push_cast
    omega
  simp [revenue_in_last_x_days, revenuePairs, h]

/-- Every row of the revenue join carries an order row and a product row of
the store. -/
theorem revenuePairs_mem (s : Store) :
    ∀ r ∈ revenuePairs s, r.1 ∈ s.orders ∧ r.2 ∈ s.products := by
  intro r hr
  simp only [revenuePairs, List.mem_flatMap, List.mem_map, List.mem_filter]
  at hr
  obtain ⟨a, _, o, ⟨ho, _⟩, p, ⟨hp, _⟩, rfl⟩ := hr
  exact ⟨ho, hp⟩

/-- When every association row resolves to exactly one order row and one
product row, the join contributes one price per association row: a product's
price is counted once per order it appears in. -/
theorem revenuePairs_prices (s : Store)
    (hwf : ∀ a ∈ s.order_product,
      (s.orders.filter (fun o => o.id == a.1)).length = 1
      ∧ (s.products.filter (fun p => p.id == a.2)).length = 1) :
    (revenuePairs s).map (fun r => r.2.price)
      = s.order_product.map (fun a => priceOf s a.2) := by
  unfold revenuePairs
  revert hwf
  induction s.order_product with
  | nil =>
    intro _
    rfl
  | cons a t ih =>
    intro hwf
    have ha := hwf a (List.mem_cons_self a t)
    obtain ⟨o, hoa⟩ := List.length_eq_one.mp ha.1
    obtain ⟨p, hpa⟩ := List.length_eq_one.mp ha.2
    simp only [List.flatMap_cons, List.map_append, hoa, hpa]
    rw [ih (fun b hb => hwf b (List.mem_cons_of_mem a hb))]
    simp [priceOf, hpa]

/-- Counterexample to C2 as universally stated: in the empty store the window
covers all (zero) order dates and the association-pair price sum is 0, yet
the query returns SQL NULL, not 0. -/
theorem revenue_full_window_counterexample :
    revenue_in_last_x_days ⟨[], [], [], []⟩ 0 30 = none
    ∧ (((⟨[], [], [], []⟩ : Store).order_product.map
        (fun a => priceOf ⟨[], [], [], []⟩ a.2)).sum = 0)
    ∧ revenue_in_last_x_days ⟨[], [], [], []⟩ 0 30
        ≠ some (((⟨[], [], [], []⟩ : Store).order_product.map
            (fun a => priceOf ⟨[], [], [], []⟩ a.2)).sum) := by
  refine ⟨rfl, rfl, ?_⟩
  intro h
  cases h

/-- Claim C2 (amended): when the association table is nonempty, each of its
rows resolves to exactly one order and one product (primary keys), and the
window covers every order date, revenue_in_last_x_days returns exactly the
sum over association rows of the referenced product's price — one count per
order the product appears in.  (On an empty association table the aggregate
is NULL rather than 0.) -/
theorem revenue_full_window (s : Store) (now : Int) (x_days : Nat)
    (hwf : ∀ a ∈ s.order_product,
      (s.orders.filter (fun o => o.id == a.1)).length = 1
      ∧ (s.products.filter (fun p => p.id == a.2)).length = 1)
    (hwin : ∀ o ∈ s.orders, now - (x_days : Int) * 86400 < o.order_date)
    (hne : s.order_product ≠ []) :
    revenue_in_last_x_days s now x_days
      = some ((s.order_product.map (fun a => priceOf s a.2)).sum) := by
  have hmap := revenuePairs_prices s hwf
  have hfil : (revenuePairs s).filter
      (fun r => decide (now - (x_days : Int) * 86400 < r.1.order_date))
      = revenuePairs s := by
    rw [List.filter_eq_self]
    intro r hr
    exact decide_eq_true (hwin r.1 (revenuePairs_mem s r hr).1)
  have hlen : (revenuePairs s).length = s.order_product.length := by
    have := congrArg List.length hmap
    simpa using this
  have hnonempty : (revenuePairs s).isEmpty = false := by
    rw [List.isEmpty_eq_false_iff_exists_mem]
    have : s.order_product.length ≠ 0 := by
      intro h0
      exact hne (List.length_eq_zero.mp h0)
    rcases hx : revenuePairs s with _ | ⟨r, rs⟩
    · rw [hx] at hlen
      simp at hlen
      exact absurd hlen.symm this
    · exact ⟨r, List.mem_cons_self r rs⟩
  simp only [revenue_in_last_x_days, hfil, hnonempty, Bool.false_eq_true,
    if_false, hmap]

/-- Witness for C2: the two-product, one-order store; the sum over the two
association rows is 50 and the query returns some 50. -/
theorem revenue_full_window_witness :
    revenue_in_last_x_days
      ⟨[⟨1, "A", "B", "x", "y", "z", "e"⟩],
       [⟨1, 0, none, none, none, 1⟩],
       [⟨1, "p20", 20⟩, ⟨2, "p30", 30⟩],
       [(1, 1), (1, 2)]⟩ 0 30
      = some (((⟨[⟨1, "A", "B", "x", "y", "z", "e"⟩],
          [⟨1, 0, none, none, none, 1⟩],
          [⟨1, "p20", 20⟩, ⟨2, "p30", 30⟩],
          [(1, 1), (1, 2)]⟩ : Store).order_product.map
            (fun a => priceOf ⟨[⟨1, "A", "B", "x", "y", "z", "e"⟩],
              [⟨1, 0, none, none, none, 1⟩],
              [⟨1, "p20", 20⟩, ⟨2, "p30", 30⟩],
              [(1, 1), (1, 2)]⟩ a.2)).sum) :=
  revenue_full_window _ 0 30 (by decide) (by decide) (by decide)

/-- The rows AVG sees are exactly the (ship_date − order_date) differences of
the orders whose ship_date is present. -/
theorem fulfillmentDiffs_eq (l : List Order) :
    l.filterMap (fun o => o.ship_date.map (fun d => d - o.order_date))
      = (l.filter (fun o => o.ship_date.isSome)).map
          (fun o => o.ship_date.getD 0 - o.order_date) := by
  induction l with
  | nil => rfl
  | cons o t ih =>
    cases hso : o.ship_date with
    | none => simp [List.filterMap_cons, List.filter_cons, hso, ih]
    | some d => simp [List.filterMap_cons, List.filter_cons, hso, ih]

/-- Claim C7: average_fulfillment_time is the arithmetic mean of
(ship_date − order_date) in seconds over exactly the orders with a present
ship_date, pushed through the time-of-day formatter; and that formatter is
periodic with period 24 hours, so a mean of 24 hours or more is reported
wrapped modulo 24 hours rather than as the true duration. -/
theorem average_fulfillment_time_spec (s : Store)
    (h : s.orders.filter (fun o => o.ship_date.isSome) ≠ []) :
    average_fulfillment_time s = some (timeFormat (spec_meanFulfillment s))
    ∧ ∀ t : ℚ, timeFormat (t + 86400) = timeFormat t := by
  constructor
  · have hd : fulfillmentDiffs s
        = (s.orders.filter (fun o => o.ship_date.isSome)).map
            (fun o => o.ship_date.getD 0 - o.order_date) :=
      fulfillmentDiffs_eq s.orders
    have hne : (fulfillmentDiffs s).isEmpty = false := by
      rw [hd]
      rcases hx : s.orders.filter (fun o => o.ship_date.isSome) with _ | ⟨o, t⟩
      · exact absurd hx h
      · rw [hx]
        rfl
    have key : ((fulfillmentDiffs s).map (fun d : Int => (d : ℚ))).sum
        / ((fulfillmentDiffs s).length : ℚ) = spec_meanFulfillment s := by
      simp only [spec_meanFulfillment]
      rw [hd, List.map_map, List.length_map]
      rfl
    show (if (fulfillmentDiffs s).isEmpty then none
        else some (timeFormat (((fulfillmentDiffs s).map
          (fun d : Int => (d : ℚ))).sum / ((fulfillmentDiffs s).length : ℚ))))
      = some (timeFormat (spec_meanFulfillment s))
    simp only [hne, Bool.false_eq_true, if_false, key]
  · intro t
    have hf : ⌊t + (86400 : ℚ)⌋ = ⌊t⌋ + 86400 := by
      exact_mod_cast Int.floor_add_int t 86400
    simp only [timeFormat, hf]
    have h2 : (⌊t⌋ + 86400) % 86400 = ⌊t⌋ % 86400 := by omega
    rw [h2]

/-- Witness for C7: a store whose one shipped order took 3600 seconds. -/
theorem average_fulfillment_time_spec_witness :
    average_fulfillment_time ⟨[], [⟨1, 0, some 3600, none, none, 1⟩], [], []⟩
      = some (timeFormat (spec_meanFulfillment
          ⟨[], [⟨1, 0, some 3600, none, none, 1⟩], [], []⟩)) :=
  (average_fulfillment_time_spec
    ⟨[], [⟨1, 0, some 3600, none, none, 1⟩], [], []⟩ (by decide)).1

/-- Counterexample to C8 as stated: with a negative threshold, a customer
with no associated product rows has total 0, which is strictly greater than
the threshold, yet the inner join drops the customer and the query does not
return them. -/
theorem get_customers_who_spent_counterexample :
    (⟨1, "A", "B", "x", "y", "z", "e"⟩ : Customer)
        ∈ (⟨[⟨1, "A", "B", "x", "y", "z", "e"⟩], [], [], []⟩ : Store).customers
    ∧ (-1 : Int) < (customerRows
        ⟨[⟨1, "A", "B", "x", "y", "z", "e"⟩], [], [], []⟩
        ⟨1, "A", "B", "x", "y", "z", "e"⟩).sum
    ∧ (⟨1, "A", "B", "x", "y", "z", "e"⟩ : Customer)
        ∉ get_customers_who_spent_more_than_x_dollars
            ⟨[⟨1, "A", "B", "x", "y", "z", "e"⟩], [], [], []⟩ (-1) := by
  decide

/-- Claim C8 (amended): get_customers_who_spent_more_than_x_dollars returns
exactly the customers that have at least one (order, product) join row and
whose summed join-row prices strictly exceed the threshold; a customer whose
total equals the threshold is not returned, and a customer with no join rows
is never returned (which coincides with the plain sum condition whenever the
threshold is nonnegative). -/
theorem get_customers_who_spent_correct (s : Store) (amount : Int) :
    ∀ c : Customer,
      c ∈ get_customers_who_spent_more_than_x_dollars s amount ↔
        c ∈ s.customers ∧ customerRows s c ≠ []
          ∧ amount < (customerRows s c).sum := by
  intro c
  unfold get_customers_who_spent_more_than_x_dollars
  rw [List.mem_filter]
  simp [List.isEmpty_iff, and_assoc]

end App
